import Mathlib

/-!
Shallow embedding of the window-management core of this dwm fork
(src/dwm.c) and proofs about its specified behaviour.

Conventions of the embedding:
* C `int` fields are `Int`; C `unsigned int` bitmasks are `Nat`;
  C `float` aspect/master-fraction values are `ℚ` (the source computes in
  single precision; all concrete inputs used below are exactly
  representable, so the two agree there).
* A C float-to-integer conversion truncates toward zero (`ctrunc`), and the
  C `%` on `int` truncates toward zero (`Int.tmod`).
* X11 side effects (XSendEvent, XMoveResizeWindow, ...) are recorded as
  result flags or request lists; X reads (class hints, size hints) are
  parameters of the embedded functions, quantified over in the theorems.
-/

namespace Dwm

/-- Truncation toward zero of a rational, the semantics of a C cast from a
floating value to an integer type. -/
def ctrunc (q : ℚ) : Int := if q < 0 then -⌊-q⌋ else ⌊q⌋

/-- C integer division toward zero. In `__tile` the operands are the
`unsigned int` locals `wh - my` and the positive row counts, which are
nonnegative in every reachable state, where unsigned division agrees with
truncated division. -/
def cdiv (a b : Int) : Int := Int.tdiv a b

/-- Compile-time configuration and global `plug` scalars consumed by the
embedded functions: bar height `bh`, screen size `sw`/`sh`, the
`resizehints` flag, the font height `drw->fonts->h` (`fonth`), and the
number of configured tags (`LENGTH(tags)`). -/
structure Config where
  bh : Int
  sw : Int
  sh : Int
  resizehints : Bool
  fonth : Int
  numtags : Nat
deriving DecidableEq

/-- `TAGMASK` macro: `(1 << LENGTH(tags)) - 1`. -/
def TAGMASK (numtags : Nat) : Nat := 2 ^ numtags - 1

/-- The per-monitor data the embedded operations read: output rectangle
`mx,my,mw,mh`, working area `wx,wy,ww,wh`, whether the current layout has
an arranger (`lt[sellt]->arrange != NULL`), `mfact`, `nmaster`, and the
currently selected tagset `tagset[seltags]`. -/
structure Mon where
  mx : Int
  my : Int
  mw : Int
  mh : Int
  wx : Int
  wy : Int
  ww : Int
  wh : Int
  arrangeActive : Bool
  mfact : ℚ
  nmaster : Nat
  seltagset : Nat
deriving DecidableEq

/-- The `Client` struct fields the embedded operations touch. `oldstate`
stores a saved floating flag, so it is a `Bool` here. Size-hint fields are
as filled by `updatesizehints`; the embedding quantifies over their values
(the claims below add `hintsvalid` hypotheses where the hints path runs). -/
structure Client where
  x : Int
  y : Int
  w : Int
  h : Int
  oldx : Int
  oldy : Int
  oldw : Int
  oldh : Int
  maximx : Int
  maximy : Int
  maximw : Int
  maximh : Int
  basew : Int
  baseh : Int
  incw : Int
  inch : Int
  maxw : Int
  maxh : Int
  minw : Int
  minh : Int
  mina : ℚ
  maxa : ℚ
  hintsvalid : Bool
  bw : Int
  oldbw : Int
  tags : Nat
  isfixed : Bool
  isfloating : Bool
  isurgent : Bool
  neverfocus : Bool
  oldstate : Bool
  isfullscreen : Bool
  isminimized : Bool
deriving DecidableEq

/-- `WIDTH(X)` macro: `(X)->w + 2 * (X)->bw`. -/
def WIDTHc (c : Client) : Int := c.w + 2 * c.bw

/-- `HEIGHT(X)` macro: `(X)->h + 2 * (X)->bw`. -/
def HEIGHTc (c : Client) : Int := c.h + 2 * c.bw

/-- `ISVISIBLE(C)` macro: `C->tags & C->mon->tagset[C->mon->seltags]`. -/
def isVisible (m : Mon) (c : Client) : Bool := c.tags &&& m.seltagset ≠ 0

/-- `__resizeclient`: stores the new geometry, saving the previous one in
the `old*` fields, and issues the X configure (not modelled). -/
def resizeclient (c : Client) (x y w h : Int) : Client :=
  { c with
    oldx := c.x, x := x
    oldy := c.y, y := y
    oldw := c.w, w := w
    oldh := c.h, h := h }

/-! ## Tagset state (`__createmon`, `__view`, `__toggleview`, `__tag`,
`__toggletag`) for claim C3 -/

/-- The two tagsets of a monitor and the `seltags` selector bit
(`false` = slot 0, as after `ecalloc`). -/
structure MonTags where
  tagset0 : Nat
  tagset1 : Nat
  seltags : Bool
deriving DecidableEq

/-- `tagset[seltags]`, the currently selected tagset. -/
def MonTags.selset (m : MonTags) : Nat :=
  if m.seltags then m.tagset1 else m.tagset0

/-- Overwrite the currently selected tagset slot. -/
def MonTags.writeSel (m : MonTags) (v : Nat) : MonTags :=
  if m.seltags then { m with tagset1 := v } else { m with tagset0 := v }

/-- Tagset initialisation in `__createmon`:
`m->tagset[0] = m->tagset[1] = 1;` on zeroed storage. -/
def createmonTags : MonTags := { tagset0 := 1, tagset1 := 1, seltags := false }

/-- `__view`: if the requested tagset equals the current one, do nothing;
otherwise flip `seltags` and, when the request has bits inside `TAGMASK`,
write them into the newly selected slot. -/
def view (numtags : Nat) (ui : Nat) (m : MonTags) : MonTags :=
  if ui &&& TAGMASK numtags = m.selset then m
  else
    let m := { m with seltags := !m.seltags }
    if ui &&& TAGMASK numtags ≠ 0 then m.writeSel (ui &&& TAGMASK numtags) else m

/-- `__toggleview`: xor the request into the selected tagset, but only
commit when the result is non-empty. -/
def toggleview (numtags : Nat) (ui : Nat) (m : MonTags) : MonTags :=
  let newtagset := m.selset ^^^ (ui &&& TAGMASK numtags)
  if newtagset ≠ 0 then m.writeSel newtagset else m

/-- `__tag`: retags the selected client when the request is non-empty; the
monitor's tagsets are untouched. The pair returns (monitor tagsets,
selected client's tags). -/
def tagOp (numtags : Nat) (ui : Nat) (m : MonTags) (ctags : Nat) : MonTags × Nat :=
  if ui &&& TAGMASK numtags ≠ 0 then (m, ui &&& TAGMASK numtags) else (m, ctags)

/-- `__toggletag`: xor the request into the selected client's tags,
committing only a non-empty result; monitor tagsets untouched. -/
def toggletagOp (numtags : Nat) (ui : Nat) (m : MonTags) (ctags : Nat) : MonTags × Nat :=
  let newtags := ctags ^^^ (ui &&& TAGMASK numtags)
  if newtags ≠ 0 then (m, newtags) else (m, ctags)

/-- Both tagset slots of a monitor are non-empty. This is the inductive
invariant: the selected slot is one of the two. -/
def MonTags.bothSet (m : MonTags) : Prop := m.tagset0 ≠ 0 ∧ m.tagset1 ≠ 0

theorem selset_ne_zero_of_bothSet {m : MonTags} (h : m.bothSet) : m.selset ≠ 0 := by
  unfold MonTags.selset
  rcases h with ⟨h0, h1⟩
  split <;> assumption

theorem bothSet_writeSel {m : MonTags} (h : m.bothSet) {v : Nat} (hv : v ≠ 0) :
    (m.writeSel v).bothSet := by
  unfold MonTags.writeSel
  rcases h with ⟨h0, h1⟩
  split <;> exact ⟨by simpa, by simpa⟩

theorem bothSet_flip {m : MonTags} (h : m.bothSet) :
    (MonTags.mk m.tagset0 m.tagset1 (!m.seltags)).bothSet := h

/-- C3: the selected tagset is non-empty after `__createmon` and this is
preserved by `__view`, `__toggleview`, `__tag` and `__toggletag`. Proved
via the invariant that both tagset slots stay non-empty. -/
theorem selected_tagset_nonempty (numtags ui : Nat) (m : MonTags) (ctags : Nat)
    (h : m.bothSet) :
    createmonTags.bothSet ∧ createmonTags.selset ≠ 0 ∧
    (view numtags ui m).bothSet ∧ (view numtags ui m).selset ≠ 0 ∧
    (toggleview numtags ui m).bothSet ∧ (toggleview numtags ui m).selset ≠ 0 ∧
    (tagOp numtags ui m ctags).1 = m ∧
    (toggletagOp numtags ui m ctags).1 = m ∧
    m.selset ≠ 0 := by
  have hcreate : createmonTags.bothSet := by
    constructor <;> simp [createmonTags]
  have hview : (view numtags ui m).bothSet := by
    unfold view
    split
    · exact h
    · split
      · exact bothSet_writeSel (bothSet_flip h) (by assumption)
      · exact h
  have htv : (toggleview numtags ui m).bothSet := by
    unfold toggleview
    dsimp only
    split
    · exact bothSet_writeSel h (by assumption)
    · exact h
  refine ⟨hcreate, selset_ne_zero_of_bothSet hcreate,
    hview, selset_ne_zero_of_bothSet hview,
    htv, selset_ne_zero_of_bothSet htv, ?_, ?_, selset_ne_zero_of_bothSet h⟩
  · unfold tagOp; split <;> rfl
  · unfold toggletagOp; dsimp only; split <;> rfl

/-- Witness for `selected_tagset_nonempty` at a concrete monitor state. -/
theorem selected_tagset_nonempty_witness :
    (MonTags.mk 3 1 false).bothSet ∧ (view 9 4 (MonTags.mk 3 1 false)).selset ≠ 0 :=
  ⟨⟨by decide, by decide⟩,
    (selected_tagset_nonempty 9 4 (MonTags.mk 3 1 false) 1 ⟨by decide, by decide⟩).2.2.2.1⟩

/-! ## Fullscreen (`__setfullscreen`) for claim C4 -/

/-- `__setfullscreen`: entering fullscreen saves `isfloating`/`bw` into
`oldstate`/`oldbw`, zeroes the border, forces floating and resizes to the
monitor's full output rectangle; leaving fullscreen restores the saved
flag, border and the `old*` geometry (which `resizeclient` had set to the
pre-fullscreen rectangle). The EWMH property writes and `XRaiseWindow` are
not part of the client state. -/
def setfullscreen (g : Mon) (c : Client) (fullscreen : Bool) : Client :=
  if fullscreen && !c.isfullscreen then
    let c := { c with
      isfullscreen := true
      oldstate := c.isfloating
      oldbw := c.bw
      bw := 0
      isfloating := true }
    resizeclient c g.mx g.my g.mw g.mh
  else if !fullscreen && c.isfullscreen then
    let c := { c with
      isfullscreen := false
      isfloating := c.oldstate
      bw := c.oldbw
      x := c.oldx
      y := c.oldy
      w := c.oldw
      h := c.oldh }
    resizeclient c c.x c.y c.w c.h
  else c

/-- C4: `setfullscreen(c, 1)` on a non-fullscreen client zeroes the border
width (saving it in `oldbw`), saves the floating flag in `oldstate`, and
resizes to the monitor's output rectangle; an immediately following
`setfullscreen(c, 0)` restores border width, floating flag and the
pre-fullscreen rectangle. -/
theorem setfullscreen_roundtrip (g : Mon) (c : Client) (h : c.isfullscreen = false) :
    (setfullscreen g c true).bw = 0 ∧
    (setfullscreen g c true).oldbw = c.bw ∧
    (setfullscreen g c true).oldstate = c.isfloating ∧
    (setfullscreen g c true).isfullscreen = true ∧
    (setfullscreen g c true).isfloating = true ∧
    (setfullscreen g c true).x = g.mx ∧
    (setfullscreen g c true).y = g.my ∧
    (setfullscreen g c true).w = g.mw ∧
    (setfullscreen g c true).h = g.mh ∧
    (setfullscreen g (setfullscreen g c true) false).bw = c.bw ∧
    (setfullscreen g (setfullscreen g c true) false).isfloating = c.isfloating ∧
    (setfullscreen g (setfullscreen g c true) false).isfullscreen = false ∧
    (setfullscreen g (setfullscreen g c true) false).x = c.x ∧
    (setfullscreen g (setfullscreen g c true) false).y = c.y ∧
    (setfullscreen g (setfullscreen g c true) false).w = c.w ∧
    (setfullscreen g (setfullscreen g c true) false).h = c.h := by
  simp [setfullscreen, resizeclient, h]

/-- A concrete, fully evaluated client used in several witnesses. -/
def sampleClient : Client :=
  { x := 10, y := 30, w := 500, h := 400
    oldx := 10, oldy := 30, oldw := 500, oldh := 400
    maximx := 0, maximy := 0, maximw := 0, maximh := 0
    basew := 0, baseh := 0, incw := 0, inch := 0
    maxw := 0, maxh := 0, minw := 0, minh := 0
    mina := 0, maxa := 0, hintsvalid := true
    bw := 1, oldbw := 1, tags := 1
    isfixed := false, isfloating := false, isurgent := false
    neverfocus := false, oldstate := false, isfullscreen := false
    isminimized := false }

/-- A concrete single-monitor geometry: 1920x1080 output, bar of height 20
at the top, tiling arranger active. -/
def sampleMon : Mon :=
  { mx := 0, my := 0, mw := 1920, mh := 1080
    wx := 0, wy := 20, ww := 1920, wh := 1060
    arrangeActive := true, mfact := 11/20, nmaster := 1, seltagset := 1 }

/-- Witness for `setfullscreen_roundtrip` on a concrete client. -/
theorem setfullscreen_roundtrip_witness :
    sampleClient.isfullscreen = false ∧
    (setfullscreen sampleMon (setfullscreen sampleMon sampleClient true) false).w
      = sampleClient.w :=
  ⟨by decide, (setfullscreen_roundtrip sampleMon sampleClient (by decide)).2.2.2.2.2.2.2.2.2.2.2.2.2.2.1⟩

/-! ## Size hints (`__applysizehints`) for claims C7, C8 -/

/-- Result of `__applysizehints`: the adjusted rectangle (written back
through the pointer arguments) and the returned `changed` flag. -/
structure SizeHintsResult where
  x : Int
  y : Int
  w : Int
  h : Int
  changed : Bool
deriving DecidableEq

/-- Guard of the ICCCM block in `__applysizehints`:
`resizehints || c->isfloating || !c->mon->lt[c->mon->sellt]->arrange`. -/
def hintsCondition (cfg : Config) (m : Mon) (c : Client) : Bool :=
  cfg.resizehints || c.isfloating || !m.arrangeActive

/-- The `MAX` macro of util.h: `((A) > (B) ? (A) : (B))`. -/
def cmax (a b : Int) : Int := if a > b then a else b

/-- The `MIN` macro of util.h: `((A) < (B) ? (A) : (B))`. -/
def cmin (a b : Int) : Int := if a < b then a else b

theorem cmax_eq_max (a b : Int) : cmax a b = max a b := by
  unfold cmax; rw [max_def]; split <;> split <;> omega

/-- The two sequential position clamps of the non-`interact` branch of
`__applysizehints`, for one coordinate: `lo`/`span` are the working-area
origin and extent, `stored` the client's stored extent (from
`WIDTH`/`HEIGHT`), `v` the candidate position and `s` the (already
1-clamped) candidate extent. -/
def clampArea (lo span stored bw v s : Int) : Int :=
  let v1 := if v ≥ lo + span then lo + span - (stored + 2 * bw) else v
  if v1 + s + 2 * bw ≤ lo then lo else v1

/-- The two sequential position clamps of the `interact` branch of
`__applysizehints`, for one coordinate, against the screen `bound`. -/
def clampScreen (bound stored bw v s : Int) : Int :=
  let v1 := if v > bound then bound - (stored + 2 * bw) else v
  if v1 + s + 2 * bw < 0 then 0 else v1

/-- The ICCCM 4.1.2.3 block of `__applysizehints` (base removal, aspect
limits, increment rounding, min/max clamping), in source order. Aspect
comparisons are over ℚ where the source uses single-precision float; the
`h = 0` division (an infinity in C) is not exercised by any theorem
below. -/
def sizeHintsAdjust (c : Client) (w0 h0 : Int) : Int × Int :=
  let baseismin := c.basew == c.minw && c.baseh == c.minh
  let w1 := if baseismin then w0 else w0 - c.basew
  let h1 := if baseismin then h0 else h0 - c.baseh
  let wh2 :=
    if 0 < c.mina ∧ 0 < c.maxa then
      if c.maxa < (w1 : ℚ) / (h1 : ℚ) then (ctrunc ((h1 : ℚ) * c.maxa + 1/2), h1)
      else if c.mina < (h1 : ℚ) / (w1 : ℚ) then (w1, ctrunc ((w1 : ℚ) * c.mina + 1/2))
      else (w1, h1)
    else (w1, h1)
  let w3 := if baseismin then wh2.1 - c.basew else wh2.1
  let h3 := if baseismin then wh2.2 - c.baseh else wh2.2
  let w4 := if c.incw ≠ 0 then w3 - Int.tmod w3 c.incw else w3
  let h4 := if c.inch ≠ 0 then h3 - Int.tmod h3 c.inch else h3
  let w5 := cmax (w4 + c.basew) c.minw
  let h5 := cmax (h4 + c.baseh) c.minh
  let w6 := if c.maxw ≠ 0 then cmin w5 c.maxw else w5
  let h6 := if c.maxh ≠ 0 then cmin h5 c.maxh else h5
  (w6, h6)

/-- `__applysizehints`: clamp the candidate size to at least 1, keep the
window overlapping the screen (`interact` set) or the monitor working
area, clamp the size to at least the bar height, then run the ICCCM block
when its guard holds. The position clamps read the stored `WIDTH`/`HEIGHT`
of the client and the candidate size in source order. `updatesizehints`
(an X read refreshing the hint fields when `hintsvalid` is unset) is
covered by quantifying over the hint fields. -/
def applysizehints (cfg : Config) (m : Mon) (c : Client)
    (x0 y0 w0 h0 : Int) (interact : Bool) : SizeHintsResult :=
  let w1 := cmax 1 w0
  let h1 := cmax 1 h0
  let x2 := if interact then clampScreen cfg.sw c.w c.bw x0 w1
            else clampArea m.wx m.ww c.w c.bw x0 w1
  let y2 := if interact then clampScreen cfg.sh c.h c.bw y0 h1
            else clampArea m.wy m.wh c.h c.bw y0 h1
  let h2 := if h1 < cfg.bh then cfg.bh else h1
  let w2 := if w1 < cfg.bh then cfg.bh else w1
  let wh := if hintsCondition cfg m c then sizeHintsAdjust c w2 h2 else (w2, h2)
  { x := x2, y := y2, w := wh.1, h := wh.2
    changed := x2 != c.x || y2 != c.y || wh.1 != c.w || wh.2 != c.h }

/-- `__resize`: apply size hints and commit the rectangle through
`resizeclient` only when `changed` was returned. -/
def resize (cfg : Config) (m : Mon) (c : Client)
    (x y w h : Int) (interact : Bool) : Client :=
  let r := applysizehints cfg m c x y w h interact
  if r.changed then resizeclient c r.x r.y r.w r.h else c

/-- C7: the `changed` flag of `__applysizehints` is set iff the final
rectangle differs from the client's stored geometry, and the candidate
size is first clamped to at least 1 (so pre-clamping the inputs to 1 is
absorbed) and then to at least the bar height before the ICCCM block -
when its guard holds - sees it. -/
theorem applysizehints_changed_and_clamps (cfg : Config) (m : Mon) (c : Client)
    (x y w h : Int) (interact : Bool) :
    ((applysizehints cfg m c x y w h interact).changed = true ↔
      ¬((applysizehints cfg m c x y w h interact).x = c.x ∧
        (applysizehints cfg m c x y w h interact).y = c.y ∧
        (applysizehints cfg m c x y w h interact).w = c.w ∧
        (applysizehints cfg m c x y w h interact).h = c.h)) ∧
    applysizehints cfg m c x y (max 1 w) (max 1 h) interact
      = applysizehints cfg m c x y w h interact ∧
    (applysizehints cfg m c x y w h interact).w
      = (if hintsCondition cfg m c then
          (sizeHintsAdjust c (max cfg.bh (max 1 w)) (max cfg.bh (max 1 h))).1
         else max cfg.bh (max 1 w)) ∧
    (applysizehints cfg m c x y w h interact).h
      = (if hintsCondition cfg m c then
          (sizeHintsAdjust c (max cfg.bh (max 1 w)) (max cfg.bh (max 1 h))).2
         else max cfg.bh (max 1 h)) := by
  have habs1 : cmax 1 (max 1 w) = cmax 1 w := by
    simp only [cmax_eq_max, max_def]; split_ifs <;> omega
  have habs2 : cmax 1 (max 1 h) = cmax 1 h := by
    simp only [cmax_eq_max, max_def]; split_ifs <;> omega
  have hmaxw : (if cmax 1 w < cfg.bh then cfg.bh else cmax 1 w) = max cfg.bh (max 1 w) := by
    simp only [cmax_eq_max, max_def]; split_ifs <;> omega
  have hmaxh : (if cmax 1 h < cfg.bh then cfg.bh else cmax 1 h) = max cfg.bh (max 1 h) := by
    simp only [cmax_eq_max, max_def]; split_ifs <;> omega
  refine ⟨?_, ?_, ?_, ?_⟩
  · simp only [applysizehints, bne_iff_ne, Bool.or_eq_true, ne_eq, not_and_or]
    tauto
  · simp only [applysizehints, habs1, habs2]
  · simp only [applysizehints, hmaxw, hmaxh]
    split <;> rfl
  · simp only [applysizehints, hmaxw, hmaxh]
    split <;> rfl

/-- C8 counterexample: `__applysizehints` is not idempotent. A floating
client with `minw = 100`, aspect limits `mina = 1/10`, `maxa = 1` and bar
height 10: the first call on candidate 50x50 returns 100x5, the second
call on its own output (client geometry updated to the first output)
returns 100x10 with `changed` set again. -/
def c8client : Client :=
  { sampleClient with isfloating := true, bw := 0, x := 0, y := 0, w := 50, h := 50
                      minw := 100, minh := 1, mina := 1/10, maxa := 1 }

/-- Configuration used by the idempotence counterexample: bar height 10. -/
def c8cfg : Config :=
  { bh := 10, sw := 1920, sh := 1080, resizehints := false, fonth := 8, numtags := 9 }

/-- Monitor used by the idempotence counterexample. -/
def c8mon : Mon :=
  { mx := 0, my := 0, mw := 1000, mh := 1000, wx := 0, wy := 0, ww := 1000, wh := 1000
    arrangeActive := true, mfact := 11/20, nmaster := 1, seltagset := 1 }

/-- C8 is false as stated: at the concrete input above, the second
application returns a different height and `changed = true`. -/
theorem applysizehints_not_idempotent :
    (applysizehints c8cfg c8mon c8client 0 0 50 50 false
      = SizeHintsResult.mk 0 0 100 5 true) ∧
    (applysizehints c8cfg c8mon
        { c8client with x := 0, y := 0, w := 100, h := 5 } 0 0 100 5 false
      = SizeHintsResult.mk 0 0 100 10 true) ∧
    (10 : Int) ≠ 5 := by
  refine ⟨?_, ?_, by decide⟩ <;>
    norm_num [applysizehints, sizeHintsAdjust, hintsCondition, ctrunc, cmax, cmin,
      clampArea, clampScreen, WIDTHc, HEIGHTc, c8client, c8cfg, c8mon, sampleClient]

/-- Update a client's stored geometry to an `__applysizehints` result, as
the second call of the idempotence statement requires. -/
def withGeom (c : Client) (r : SizeHintsResult) : Client :=
  { c with x := r.x, y := r.y, w := r.w, h := r.h }

theorem withGeom_x (c : Client) (r : SizeHintsResult) : (withGeom c r).x = r.x := rfl

theorem withGeom_y (c : Client) (r : SizeHintsResult) : (withGeom c r).y = r.y := rfl

theorem withGeom_w (c : Client) (r : SizeHintsResult) : (withGeom c r).w = r.w := rfl

theorem withGeom_h (c : Client) (r : SizeHintsResult) : (withGeom c r).h = r.h := rfl

theorem withGeom_bw (c : Client) (r : SizeHintsResult) : (withGeom c r).bw = c.bw := rfl

theorem clampArea_stable (lo span stored stored2 bw x w ww : Int)
    (_h1 : 1 ≤ w) (hle : w ≤ ww) (hspan : 0 < span) (hst : 1 ≤ stored + 2 * bw) :
    clampArea lo span stored2 bw (clampArea lo span stored bw x w) ww
      = clampArea lo span stored bw x w := by
  unfold clampArea
  dsimp only
  split_ifs <;> omega

theorem clampScreen_stable (bound stored stored2 bw x w ww : Int)
    (h1 : 1 ≤ w) (hle : w ≤ ww) (hbound : 0 ≤ bound) (hbw : 0 ≤ bw)
    (hst : 1 ≤ stored + 2 * bw) :
    clampScreen bound stored2 bw (clampScreen bound stored bw x w) ww
      = clampScreen bound stored bw x w := by
  unfold clampScreen
  dsimp only
  split_ifs <;> omega

/-- C8 amended: when the ICCCM hints block is off (the client is not
floating, its monitor's layout has an arranger, and `resizehints` is
unset), `__applysizehints` is idempotent for clients with a positive
stored outer size, nonnegative border, positive working area and
nonnegative screen size: applied to its own output, with the geometry
updated to that output, it returns the same rectangle and
`changed = false`. -/
theorem applysizehints_idempotent_nohints (cfg : Config) (m : Mon) (c : Client)
    (x y w h : Int) (interact : Bool)
    (hcond : hintsCondition cfg m c = false)
    (hww : 0 < m.ww) (hwh : 0 < m.wh)
    (hsw : 0 ≤ cfg.sw) (hsh : 0 ≤ cfg.sh) (hbw : 0 ≤ c.bw)
    (hcw : 1 ≤ c.w + 2 * c.bw) (hch : 1 ≤ c.h + 2 * c.bw) :
    applysizehints cfg m (withGeom c (applysizehints cfg m c x y w h interact))
        (applysizehints cfg m c x y w h interact).x
        (applysizehints cfg m c x y w h interact).y
        (applysizehints cfg m c x y w h interact).w
        (applysizehints cfg m c x y w h interact).h interact
      = SizeHintsResult.mk
          (applysizehints cfg m c x y w h interact).x
          (applysizehints cfg m c x y w h interact).y
          (applysizehints cfg m c x y w h interact).w
          (applysizehints cfg m c x y w h interact).h false := by
  set r := applysizehints cfg m c x y w h interact with hr
  have hrx : r.x = (if interact then clampScreen cfg.sw c.w c.bw x (cmax 1 w)
      else clampArea m.wx m.ww c.w c.bw x (cmax 1 w)) := by
    rw [hr]; simp only [applysizehints]
  have hry : r.y = (if interact then clampScreen cfg.sh c.h c.bw y (cmax 1 h)
      else clampArea m.wy m.wh c.h c.bw y (cmax 1 h)) := by
    rw [hr]; simp only [applysizehints]
  have hrw : r.w = (if cmax 1 w < cfg.bh then cfg.bh else cmax 1 w) := by
    rw [hr]; simp only [applysizehints, hcond, Bool.false_eq_true, if_false]
  have hrh : r.h = (if cmax 1 h < cfg.bh then cfg.bh else cmax 1 h) := by
    rw [hr]; simp only [applysizehints, hcond, Bool.false_eq_true, if_false]
  have h1w : (1 : Int) ≤ cmax 1 w := by unfold cmax; split <;> omega
  have h1h : (1 : Int) ≤ cmax 1 h := by unfold cmax; split <;> omega
  have h1rw : (1 : Int) ≤ r.w := by rw [hrw]; split <;> omega
  have h1rh : (1 : Int) ≤ r.h := by rw [hrh]; split <;> omega
  have hwle : cmax 1 w ≤ r.w := by rw [hrw]; split <;> omega
  have hhle : cmax 1 h ≤ r.h := by rw [hrh]; split <;> omega
  have hcmw : cmax 1 r.w = r.w := by unfold cmax; split <;> omega
  have hcmh : cmax 1 r.h = r.h := by unfold cmax; split <;> omega
  have hcond2 : hintsCondition cfg m (withGeom c r) = false := by
    simpa only [hintsCondition, withGeom] using hcond
  have hx2 : (if interact then clampScreen cfg.sw r.w c.bw r.x (cmax 1 r.w)
      else clampArea m.wx m.ww r.w c.bw r.x (cmax 1 r.w)) = r.x := by
    rw [hcmw, hrx]
    cases interact
    · simp only [Bool.false_eq_true, if_false]
      exact clampArea_stable m.wx m.ww c.w r.w c.bw x (cmax 1 w) r.w h1w hwle hww hcw
    · simp only [if_true]
      exact clampScreen_stable cfg.sw c.w r.w c.bw x (cmax 1 w) r.w h1w hwle hsw hbw hcw
  have hy2 : (if interact then clampScreen cfg.sh r.h c.bw r.y (cmax 1 r.h)
      else clampArea m.wy m.wh r.h c.bw r.y (cmax 1 r.h)) = r.y := by
    rw [hcmh, hry]
    cases interact
    · simp only [Bool.false_eq_true, if_false]
      exact clampArea_stable m.wy m.wh c.h r.h c.bw y (cmax 1 h) r.h h1h hhle hwh hch
    · simp only [if_true]
      exact clampScreen_stable cfg.sh c.h r.h c.bw y (cmax 1 h) r.h h1h hhle hsh hbw hch
  have hw2 : (if cmax 1 r.w < cfg.bh then cfg.bh else cmax 1 r.w) = r.w := by
    rw [hcmw, hrw]; split_ifs <;> omega
  have hh2 : (if cmax 1 r.h < cfg.bh then cfg.bh else cmax 1 r.h) = r.h := by
    rw [hcmh, hrh]; split_ifs <;> omega
  simp only [applysizehints, hcond2, Bool.false_eq_true, if_false,
    withGeom_x, withGeom_y, withGeom_w, withGeom_h, withGeom_bw]
  rw [hx2, hy2, hw2, hh2]
  simp

/-! ## ConfigureRequest (`__configurerequest`, `__configure`) for claims
C1, C2 -/

/-- Fields of an `XConfigureRequestEvent` the handler reads. `valueMask`
uses the X.h bit values `CWX = 1`, `CWY = 2`, `CWWidth = 4`,
`CWHeight = 8`, `CWBorderWidth = 16`. -/
structure ConfReq where
  valueMask : Nat
  ex : Int
  ey : Int
  ewidth : Int
  eheight : Int
  eborder : Int
deriving DecidableEq

/-- Outcome of `__configurerequest` on a managed client: the updated
client, whether a synthetic ConfigureNotify (`__configure`) was sent, and
whether an `XMoveResizeWindow` was issued (the `ISVISIBLE` check). -/
structure CRResult where
  client : Client
  sentConfigureNotify : Bool
  movedWindow : Bool
deriving DecidableEq

/-- The `CWX` arm of the floating branch of `__configurerequest`. -/
def crApplyX (m : Mon) (ev : ConfReq) (c : Client) : Client :=
  if ev.valueMask &&& 1 ≠ 0 then { c with oldx := c.x, x := m.mx + ev.ex } else c

/-- The `CWY` arm of the floating branch of `__configurerequest`. -/
def crApplyY (m : Mon) (ev : ConfReq) (c : Client) : Client :=
  if ev.valueMask &&& 2 ≠ 0 then { c with oldy := c.y, y := m.my + ev.ey } else c

/-- The `CWWidth` arm of the floating branch of `__configurerequest`. -/
def crApplyW (ev : ConfReq) (c : Client) : Client :=
  if ev.valueMask &&& 4 ≠ 0 then { c with oldw := c.w, w := ev.ewidth } else c

/-- The `CWHeight` arm of the floating branch of `__configurerequest`. -/
def crApplyH (ev : ConfReq) (c : Client) : Client :=
  if ev.valueMask &&& 8 ≠ 0 then { c with oldh := c.h, h := ev.eheight } else c

/-- The x centering step of `__configurerequest` (window falling off the
monitor). -/
def crCenterX (m : Mon) (c : Client) : Client :=
  if c.x + c.w > m.mx + m.mw && c.isfloating then
    { c with x := m.mx + (cdiv m.mw 2 - cdiv (WIDTHc c) 2) } else c

/-- The y centering step of `__configurerequest`. -/
def crCenterY (m : Mon) (c : Client) : Client :=
  if c.y + c.h > m.my + m.mh && c.isfloating then
    { c with y := m.my + (cdiv m.mh 2 - cdiv (HEIGHTc c) 2) } else c

/-- `__configurerequest`, managed-client arm (`wintoclient` found `c`).
The handler begins with `c->isfloating = 1;`, so the later
`c->isfloating || !selmon->lt[sellt]->arrange` test always takes the
floating branch and the final `else configure(c)` (the tiled deny reply)
is dead code. `selmonArrange` is the selected monitor's
`lt[sellt]->arrange != NULL`; `m` is the client's own monitor. -/
def configurerequestManaged (selmonArrange : Bool) (m : Mon) (c : Client)
    (ev : ConfReq) : CRResult :=
  let c := { c with isfloating := true }
  if ev.valueMask &&& 16 ≠ 0 then
    { client := { c with bw := ev.eborder }
      sentConfigureNotify := false, movedWindow := false }
  else if c.isfloating || !selmonArrange then
    let c := crCenterY m (crCenterX m (crApplyH ev (crApplyW ev (crApplyY m ev (crApplyX m ev c)))))
    { client := c
      sentConfigureNotify := (ev.valueMask &&& 3 != 0) && (ev.valueMask &&& 12 == 0)
      movedWindow := isVisible m c }
  else
    { client := c, sentConfigureNotify := true, movedWindow := false }

theorem crApplyX_fields (m : Mon) (ev : ConfReq) (c : Client) :
    (crApplyX m ev c).bw = c.bw ∧ (crApplyX m ev c).isfloating = c.isfloating ∧
    (crApplyX m ev c).isfullscreen = c.isfullscreen ∧
    (crApplyX m ev c).w = c.w ∧ (crApplyX m ev c).h = c.h := by
  unfold crApplyX; split <;> exact ⟨rfl, rfl, rfl, rfl, rfl⟩

theorem crApplyY_fields (m : Mon) (ev : ConfReq) (c : Client) :
    (crApplyY m ev c).bw = c.bw ∧ (crApplyY m ev c).isfloating = c.isfloating ∧
    (crApplyY m ev c).isfullscreen = c.isfullscreen ∧
    (crApplyY m ev c).w = c.w ∧ (crApplyY m ev c).h = c.h := by
  unfold crApplyY; split <;> exact ⟨rfl, rfl, rfl, rfl, rfl⟩

theorem crApplyW_fields (ev : ConfReq) (c : Client) :
    (crApplyW ev c).bw = c.bw ∧ (crApplyW ev c).isfloating = c.isfloating ∧
    (crApplyW ev c).isfullscreen = c.isfullscreen ∧
    (crApplyW ev c).w = (if ev.valueMask &&& 4 ≠ 0 then ev.ewidth else c.w) ∧
    (crApplyW ev c).h = c.h := by
  unfold crApplyW
  split <;> exact ⟨rfl, rfl, rfl, rfl, rfl⟩

theorem crApplyH_fields (ev : ConfReq) (c : Client) :
    (crApplyH ev c).bw = c.bw ∧ (crApplyH ev c).isfloating = c.isfloating ∧
    (crApplyH ev c).isfullscreen = c.isfullscreen ∧
    (crApplyH ev c).w = c.w ∧
    (crApplyH ev c).h = (if ev.valueMask &&& 8 ≠ 0 then ev.eheight else c.h) := by
  unfold crApplyH
  split <;> exact ⟨rfl, rfl, rfl, rfl, rfl⟩

theorem crCenterX_fields (m : Mon) (c : Client) :
    (crCenterX m c).bw = c.bw ∧ (crCenterX m c).isfloating = c.isfloating ∧
    (crCenterX m c).isfullscreen = c.isfullscreen ∧
    (crCenterX m c).w = c.w ∧ (crCenterX m c).h = c.h := by
  unfold crCenterX; split <;> exact ⟨rfl, rfl, rfl, rfl, rfl⟩

theorem crCenterY_fields (m : Mon) (c : Client) :
    (crCenterY m c).bw = c.bw ∧ (crCenterY m c).isfloating = c.isfloating ∧
    (crCenterY m c).isfullscreen = c.isfullscreen ∧
    (crCenterY m c).w = c.w ∧ (crCenterY m c).h = c.h := by
  unfold crCenterY; split <;> exact ⟨rfl, rfl, rfl, rfl, rfl⟩

theorem configurerequestManaged_noborder (selmonArrange : Bool) (m : Mon)
    (c : Client) (ev : ConfReq) (hb : ev.valueMask &&& 16 = 0) :
    (configurerequestManaged selmonArrange m c ev).client.isfloating = true ∧
    (configurerequestManaged selmonArrange m c ev).client.bw = c.bw ∧
    (configurerequestManaged selmonArrange m c ev).client.isfullscreen = c.isfullscreen ∧
    (configurerequestManaged selmonArrange m c ev).client.w
      = (if ev.valueMask &&& 4 ≠ 0 then ev.ewidth else c.w) ∧
    (configurerequestManaged selmonArrange m c ev).client.h
      = (if ev.valueMask &&& 8 ≠ 0 then ev.eheight else c.h) ∧
    (configurerequestManaged selmonArrange m c ev).sentConfigureNotify
      = ((ev.valueMask &&& 3 != 0) && (ev.valueMask &&& 12 == 0)) := by
  have hbne : ¬ (ev.valueMask &&& 16 ≠ 0) := by omega
  simp only [configurerequestManaged, hbne, if_false, Bool.true_or, if_true]
  set c0 : Client := { c with isfloating := true } with hc0
  obtain ⟨b1, f1, s1, w1, h1⟩ := crApplyX_fields m ev c0
  obtain ⟨b2, f2, s2, w2, h2⟩ := crApplyY_fields m ev (crApplyX m ev c0)
  obtain ⟨b3, f3, s3, w3, h3⟩ := crApplyW_fields ev (crApplyY m ev (crApplyX m ev c0))
  obtain ⟨b4, f4, s4, w4, h4⟩ :=
    crApplyH_fields ev (crApplyW ev (crApplyY m ev (crApplyX m ev c0)))
  obtain ⟨b5, f5, s5, w5, h5⟩ :=
    crCenterX_fields m (crApplyH ev (crApplyW ev (crApplyY m ev (crApplyX m ev c0))))
  obtain ⟨b6, f6, s6, w6, h6⟩ :=
    crCenterY_fields m
      (crCenterX m (crApplyH ev (crApplyW ev (crApplyY m ev (crApplyX m ev c0)))))
  refine ⟨?_, ?_, ?_, ?_, ?_, trivial⟩
  · rw [f6, f5, f4, f3, f2, f1]
  · rw [b6, b5, b4, b3, b2, b1]
  · rw [s6, s5, s4, s3, s2, s1]
  · rw [w6, w5, w4, w3, w2, w1]
  · rw [h6, h5, h4, h3, h2, h1]

/-- C1 counterexample: a ConfigureRequest with
`value_mask = CWX|CWY|CWWidth|CWHeight` on a managed tiled client under an
active tiling arranger does not reply with a synthetic ConfigureNotify:
the stored geometry changes to the requested one and the client is marked
floating. -/
theorem configurerequest_tiled_not_denied :
    sampleClient.isfloating = false ∧ sampleMon.arrangeActive = true ∧
    (configurerequestManaged true sampleMon sampleClient
      (ConfReq.mk 15 100 200 800 600 0)).sentConfigureNotify = false ∧
    (configurerequestManaged true sampleMon sampleClient
      (ConfReq.mk 15 100 200 800 600 0)).client.x = 100 ∧
    sampleClient.x = 10 ∧
    (configurerequestManaged true sampleMon sampleClient
      (ConfReq.mk 15 100 200 800 600 0)).client.isfloating = true := by
  decide

/-- C1 amended: on every managed client whose ConfigureRequest mask lacks
`CWBorderWidth`, the handler marks the client floating and applies the
request as for a floating client (requested size bits overwrite the
stored size, the border width is untouched), and the synthetic
ConfigureNotify is sent exactly when the mask has a position bit and no
size bit; the tiled deny branch is unreachable. -/
theorem configurerequest_applies_as_floating (selmonArrange : Bool) (m : Mon)
    (c : Client) (ev : ConfReq) (hb : ev.valueMask &&& 16 = 0) :
    (configurerequestManaged selmonArrange m c ev).client.isfloating = true ∧
    (configurerequestManaged selmonArrange m c ev).client.bw = c.bw ∧
    (configurerequestManaged selmonArrange m c ev).client.w
      = (if ev.valueMask &&& 4 ≠ 0 then ev.ewidth else c.w) ∧
    (configurerequestManaged selmonArrange m c ev).client.h
      = (if ev.valueMask &&& 8 ≠ 0 then ev.eheight else c.h) ∧
    (configurerequestManaged selmonArrange m c ev).sentConfigureNotify
      = ((ev.valueMask &&& 3 != 0) && (ev.valueMask &&& 12 == 0)) := by
  obtain ⟨h1, h2, _, h4, h5, h6⟩ :=
    configurerequestManaged_noborder selmonArrange m c ev hb
  exact ⟨h1, h2, h4, h5, h6⟩

/-- Witness for `configurerequest_applies_as_floating` at the C1 scenario
request. -/
theorem configurerequest_applies_as_floating_witness :
    (ConfReq.mk 15 100 200 800 600 0).valueMask &&& 16 = 0 ∧
    (configurerequestManaged true sampleMon sampleClient
      (ConfReq.mk 15 100 200 800 600 0)).client.isfloating = true :=
  ⟨by decide,
    (configurerequest_applies_as_floating true sampleMon sampleClient
      (ConfReq.mk 15 100 200 800 600 0) (by decide)).1⟩

/-! ## Fullscreen invariant (`__setfullscreen`, `__configurerequest`,
`__minimize`, `__togglefloating`) for claim C2 -/

/-- The spec invariant `c.isfullscreen ⇒ c.isfloating ∧ c.bw = 0`. -/
def fsfloatInv (c : Client) : Prop :=
  c.isfullscreen = true → c.isfloating = true ∧ c.bw = 0

theorem fsfloatInv_of_not_fs {c : Client} (h : c.isfullscreen = false) :
    fsfloatInv c := by
  intro hfs; rw [h] at hfs; cases hfs

theorem fsfloatInv_of_fields {c : Client} (h1 : c.isfloating = true)
    (h2 : c.bw = 0) : fsfloatInv c := fun _ => ⟨h1, h2⟩

theorem resize_fields (cfg : Config) (m : Mon) (c : Client)
    (x y w h : Int) (interact : Bool) :
    (resize cfg m c x y w h interact).bw = c.bw ∧
    (resize cfg m c x y w h interact).isfloating = c.isfloating ∧
    (resize cfg m c x y w h interact).isfullscreen = c.isfullscreen ∧
    (resize cfg m c x y w h interact).isminimized = c.isminimized ∧
    (resize cfg m c x y w h interact).isfixed = c.isfixed ∧
    (resize cfg m c x y w h interact).tags = c.tags := by
  unfold resize
  dsimp only
  split <;> exact ⟨rfl, rfl, rfl, rfl, rfl, rfl⟩

theorem fsfloatInv_resize {cfg : Config} {m : Mon} {c : Client}
    {x y w h : Int} {interact : Bool} (hc : fsfloatInv c) :
    fsfloatInv (resize cfg m c x y w h interact) := by
  obtain ⟨hbw, hfl, hfs, -, -, -⟩ := resize_fields cfg m c x y w h interact
  intro hfull
  rw [hfs] at hfull
  obtain ⟨h1, h2⟩ := hc hfull
  exact ⟨hfl.trans h1, hbw.trans h2⟩

/-- `__togglefloating` acting on the selected client: no-op on fullscreen
clients, otherwise flip the floating flag (forced on for fixed clients)
and, when now floating, resize to the stored geometry. -/
def togglefloating (cfg : Config) (m : Mon) (c : Client) : Client :=
  if c.isfullscreen then c
  else
    let c := { c with isfloating := !c.isfloating || c.isfixed }
    if c.isfloating then resize cfg m c c.x c.y c.w c.h false else c

/-- A geometry request recorded where the source calls `resize`. -/
structure Rect where
  x : Int
  y : Int
  w : Int
  h : Int
deriving DecidableEq

/-- The relayout loop shared by `__minimize` (strip height 20) and
`__restore` (strip height 10): walk the monitor's client list and give
every minimized client a `50 x hgt` strip at `y = my + fonts->h + 2`,
advancing x by 50 from `m->mx`. In the source the loop also checks
`d->mon == c->mon`; the embedding's list is that one monitor's list.
Returns the resize requests in list order and the updated clients. -/
def relayoutMinimized (cfg : Config) (m : Mon) (hgt : Int) :
    Int → List Client → List Rect × List Client
  | _, [] => ([], [])
  | xoff, d :: ds =>
    if d.isminimized then
      let d' := resize cfg m d xoff (m.my + cfg.fonth + 2) 50 hgt false
      let rest := relayoutMinimized cfg m hgt (xoff + 50) ds
      (Rect.mk xoff (m.my + cfg.fonth + 2) 50 hgt :: rest.1, d' :: rest.2)
    else
      let rest := relayoutMinimized cfg m hgt xoff ds
      (rest.1, d :: rest.2)

/-- `__minimize` on the client at index `t` of its monitor's client list:
save the geometry in `maxim*`, set minimized/floating, clear fullscreen,
relayout all minimized clients as 50x20 strips, then set `isfixed`.
Returns the updated list and the resize requests issued by the loop. -/
def minimize (cfg : Config) (m : Mon) (clients : List Client) (t : Nat) :
    List Client × List Rect :=
  match clients.get? t with
  | none => (clients, [])
  | some c =>
    if c.isminimized then (clients, [])
    else
      let c1 := { c with
        maximx := c.x, maximy := c.y, maximw := c.w, maximh := c.h
        isminimized := true, isfloating := true, isfullscreen := false }
      let r := relayoutMinimized cfg m 20 m.mx (clients.set t c1)
      let cl :=
        match r.2.get? t with
        | some c2 => r.2.set t { c2 with isfixed := true }
        | none => r.2
      (cl, r.1)

/-- `__restore` on the client at index `t`: resize back to the saved
`maxim*` rectangle (with `interact = 1`), clear minimized/fixed, then
relayout the remaining minimized clients — with strip height 10. -/
def restore (cfg : Config) (m : Mon) (clients : List Client) (t : Nat) :
    List Client × List Rect :=
  match clients.get? t with
  | none => (clients, [])
  | some c =>
    if !c.isminimized then (clients, [])
    else
      let c1 := resize cfg m c c.maximx c.maximy c.maximw c.maximh true
      let c2 := { c1 with isminimized := false, isfixed := false }
      let r := relayoutMinimized cfg m 10 m.mx (clients.set t c2)
      (r.2, r.1)

theorem relayoutMinimized_inv (cfg : Config) (m : Mon) (hgt : Int)
    (xoff : Int) (ds : List Client) (hall : ∀ d ∈ ds, fsfloatInv d) :
    ∀ d ∈ (relayoutMinimized cfg m hgt xoff ds).2, fsfloatInv d := by
  induction ds generalizing xoff with
  | nil => intro d hd; simp [relayoutMinimized] at hd
  | cons a as ih =>
    intro d hd
    unfold relayoutMinimized at hd
    dsimp only at hd
    have ha : fsfloatInv a := hall a (List.mem_cons_self a as)
    have has : ∀ d ∈ as, fsfloatInv d := fun d hd => hall d (List.mem_cons_of_mem a hd)
    split at hd
    · rcases List.mem_cons.mp hd with rfl | hd'
      · exact fsfloatInv_resize ha
      · exact ih (xoff + 50) has d hd'
    · rcases List.mem_cons.mp hd with rfl | hd'
      · exact ha
      · exact ih xoff has d hd'

theorem mem_set_cases {l : List Client} {n : Nat} {b d : Client}
    (hd : d ∈ l.set n b) : d ∈ l ∨ d = b :=
  List.mem_or_eq_of_mem_set hd

/-- C2 counterexample client: a well-formed fullscreen client. -/
def c2client : Client :=
  { sampleClient with isfullscreen := true, isfloating := true, bw := 0 }

/-- C2 is false as stated: a ConfigureRequest carrying `CWBorderWidth`
with a non-zero border on a fullscreen client leaves it fullscreen but
stores the requested border width, breaking
`isfullscreen ⇒ isfloating ∧ bw = 0`. -/
theorem fullscreen_invariant_broken_by_border_request :
    fsfloatInv c2client ∧
    (configurerequestManaged true sampleMon c2client
      (ConfReq.mk 16 0 0 0 0 5)).client.isfullscreen = true ∧
    (configurerequestManaged true sampleMon c2client
      (ConfReq.mk 16 0 0 0 0 5)).client.bw = 5 ∧
    ¬ fsfloatInv ((configurerequestManaged true sampleMon c2client
      (ConfReq.mk 16 0 0 0 0 5)).client) := by
  refine ⟨fun _ => ⟨by decide, by decide⟩, by decide, by decide, ?_⟩
  intro hinv
  have := (hinv (by decide)).2
  simp [configurerequestManaged, c2client, sampleClient] at this

/-- C2 amended: the invariant `isfullscreen ⇒ isfloating ∧ bw = 0` is
preserved by `setfullscreen` (both directions), by `togglefloating`, by
`minimize` (for every client of the list), and by `configurerequest`
whenever the request's `value_mask` does not carry `CWBorderWidth`; a
border-width request can break it (see the counterexample). -/
theorem fullscreen_invariant_preserved (cfg : Config) (g : Mon)
    (selArr : Bool) (c : Client) (ev : ConfReq) (cl : List Client)
    (t : Nat) (fs : Bool) (hinv : fsfloatInv c)
    (hb : ev.valueMask &&& 16 = 0) (hcl : ∀ d ∈ cl, fsfloatInv d) :
    fsfloatInv (setfullscreen g c fs) ∧
    fsfloatInv ((configurerequestManaged selArr g c ev).client) ∧
    fsfloatInv (togglefloating cfg g c) ∧
    (∀ d ∈ (minimize cfg g cl t).1, fsfloatInv d) := by
  refine ⟨?_, ?_, ?_, ?_⟩
  · unfold setfullscreen
    split
    · exact fsfloatInv_of_fields rfl rfl
    · split
      · exact fsfloatInv_of_not_fs rfl
      · exact hinv
  · obtain ⟨hf, hbw, hfs, -, -, -⟩ :=
      configurerequestManaged_noborder selArr g c ev hb
    intro hfull
    rw [hfs] at hfull
    exact ⟨hf, hbw.trans (hinv hfull).2⟩
  · unfold togglefloating
    split
    · exact hinv
    · rename_i hnfs
      have hnfs' : c.isfullscreen = false := by
        cases hcfs : c.isfullscreen
        · rfl
        · exact absurd hcfs hnfs
      dsimp only
      split
      · exact fsfloatInv_resize (fsfloatInv_of_not_fs hnfs')
      · exact fsfloatInv_of_not_fs hnfs'
  · unfold minimize
    cases hg : cl.get? t with
    | none => simpa using hcl
    | some c0 =>
      dsimp only
      split
      · simpa using hcl
      · have hset : ∀ d ∈ cl.set t { c0 with
            maximx := c0.x, maximy := c0.y, maximw := c0.w, maximh := c0.h
            isminimized := true, isfloating := true, isfullscreen := false },
            fsfloatInv d := by
          intro d hd
          rcases mem_set_cases hd with hd' | rfl
          · exact hcl d hd'
          · exact fsfloatInv_of_not_fs rfl
        have hrel := relayoutMinimized_inv cfg g 20 g.mx _ hset
        intro d hd
        dsimp only at hd
        rcases hg2 : (relayoutMinimized cfg g 20 g.mx (cl.set t { c0 with
            maximx := c0.x, maximy := c0.y, maximw := c0.w, maximh := c0.h
            isminimized := true, isfloating := true, isfullscreen := false })).2.get? t with
          hnone | c2
        · rw [hg2] at hd
          exact hrel d hd
        · rw [hg2] at hd
          rcases mem_set_cases hd with hd' | rfl
          · exact hrel d hd'
          · have hc2 : fsfloatInv c2 := by
              apply hrel
              exact List.get?_mem hg2
            intro hfull
            exact hc2 hfull

/-- Witness for `fullscreen_invariant_preserved` at concrete inputs. -/
theorem fullscreen_invariant_preserved_witness :
    fsfloatInv c2client ∧
    fsfloatInv (setfullscreen sampleMon c2client false) :=
  ⟨fun _ => ⟨by decide, by decide⟩,
    (fullscreen_invariant_preserved c8cfg sampleMon true c2client
      (ConfReq.mk 0 0 0 0 0 0) [] 0 false (fun _ => ⟨by decide, by decide⟩)
      (by decide) (by intro d hd; cases hd)).1⟩

/-! ## Minimized-client strips (`__minimize`, `__restore`) for claim C9 -/

theorem relayoutMinimized_req_at (cfg : Config) (m : Mon) (hgt : Int)
    (ds : List Client) :
    ∀ (xoff : Int) (k : Nat) (r : Rect),
      (relayoutMinimized cfg m hgt xoff ds).1.get? k = some r →
      r = Rect.mk (xoff + 50 * k) (m.my + cfg.fonth + 2) 50 hgt := by
  induction ds with
  | nil =>
    intro xoff k r hr
    simp [relayoutMinimized] at hr
  | cons a as ih =>
    intro xoff k r hr
    unfold relayoutMinimized at hr
    dsimp only at hr
    split at hr
    · cases k with
      | zero =>
        simp only [List.get?] at hr
        cases hr
        norm_num
      | succ k' =>
        simp only [List.get?] at hr
        have := ih (xoff + 50) k' r hr
        rw [this]
        congr 1
        push_cast
        ring
    · exact ih xoff k r hr

theorem minimize_req_at (cfg : Config) (m : Mon) (cl : List Client)
    (t : Nat) (k : Nat) (r : Rect)
    (hr : (minimize cfg m cl t).2.get? k = some r) :
    r = Rect.mk (m.mx + 50 * k) (m.my + cfg.fonth + 2) 50 20 := by
  unfold minimize at hr
  cases hg : cl.get? t with
  | none => rw [hg] at hr; simp at hr
  | some c0 =>
    rw [hg] at hr
    dsimp only at hr
    split at hr
    · simp at hr
    · exact relayoutMinimized_req_at cfg m 20 _ m.mx k r hr

theorem restore_req_at (cfg : Config) (m : Mon) (cl : List Client)
    (t : Nat) (k : Nat) (r : Rect)
    (hr : (restore cfg m cl t).2.get? k = some r) :
    r = Rect.mk (m.mx + 50 * k) (m.my + cfg.fonth + 2) 50 10 := by
  unfold restore at hr
  cases hg : cl.get? t with
  | none => rw [hg] at hr; simp at hr
  | some c0 =>
    rw [hg] at hr
    dsimp only at hr
    split at hr
    · simp at hr
    · exact relayoutMinimized_req_at cfg m 10 _ m.mx k r hr

/-- C9 amended: every resize request issued by `__minimize` is a 50x20
strip at `y = my + fonts->h + 2`, `x = mx + 50*k` where `k` is the
request's rank (the minimized clients in client-list order); every
request issued by `__restore` for the remaining minimized clients is a
50x10 strip (height 10, not 20) at the same positions. -/
theorem minimize_restore_strip_requests (cfg : Config) (m : Mon)
    (cl : List Client) (t : Nat) (k : Nat) (r : Rect) :
    ((minimize cfg m cl t).2.get? k = some r →
      r = Rect.mk (m.mx + 50 * k) (m.my + cfg.fonth + 2) 50 20) ∧
    ((restore cfg m cl t).2.get? k = some r →
      r = Rect.mk (m.mx + 50 * k) (m.my + cfg.fonth + 2) 50 10) :=
  ⟨minimize_req_at cfg m cl t k r, restore_req_at cfg m cl t k r⟩

/-- Witness for `minimize_restore_strip_requests` at a concrete two-client
list: minimizing the first client issues two 50x20 strip requests at
x = mx and x = mx + 50. -/
theorem minimize_restore_strip_requests_witness :
    ((minimize c8cfg c8mon
        [sampleClient, { sampleClient with isminimized := true }] 0).2.get? 1
      = some (Rect.mk 50 10 50 20)) ∧
    Rect.mk 50 10 50 20
      = Rect.mk (c8mon.mx + 50 * 1) (c8mon.my + c8cfg.fonth + 2) 50 20 :=
  ⟨by decide,
    (minimize_restore_strip_requests c8cfg c8mon
      [sampleClient, { sampleClient with isminimized := true }] 0 1
      (Rect.mk 50 10 50 20)).1 (by decide)⟩

/-- C9 counterexample: restoring a minimized client re-lays the remaining
minimized clients as 50x10 strips, not 50x20 — the claimed 50x20 geometry
is not maintained across `__restore`. -/
theorem restore_strip_height_is_ten :
    (restore c8cfg c8mon
        [{ sampleClient with isminimized := true },
         { sampleClient with isminimized := true }] 0).2
      = [Rect.mk 0 10 50 10] ∧
    ¬ (∀ r ∈ (restore c8cfg c8mon
        [{ sampleClient with isminimized := true },
         { sampleClient with isminimized := true }] 0).2, r.h = 20) := by
  refine ⟨by decide, ?_⟩
  intro hall
  have h1 := hall (Rect.mk 0 10 50 10) (by decide)
  simp at h1

/-! ## Tile arranger (`__tile`, `__nexttiled`) for claim C5 -/

/-- Master-area width computed by `__tile`:
`if (n > m->nmaster) mw = m->nmaster ? m->ww * m->mfact : 0; else mw = m->ww;`
(the float product is truncated by the assignment to `unsigned int mw`). -/
def tileMw (m : Mon) (n : Nat) : Int :=
  if n > m.nmaster then (if m.nmaster ≠ 0 then ctrunc ((m.ww : ℚ) * m.mfact) else 0)
  else m.ww

/-- The walk of `__tile` over the visible tiled clients: `i` is the index,
`my`/`ty` the running master/stack column offsets. For each client the
rectangle passed to `resize` is recorded (paired with the client as it was
when placed) and the client is updated through `resize`; the offsets
advance by the post-resize `HEIGHT` of the client unless that would pass
`wh`. -/
def tileGo (cfg : Config) (m : Mon) (n : Nat) (mw : Int) :
    Nat → Int → Int → List Client → List (Client × Rect) × List Client
  | _, _, _, [] => ([], [])
  | i, my, ty, c :: cs =>
    if i < m.nmaster then
      let hh := cdiv (m.wh - my) ((min n m.nmaster - i : Nat) : Int)
      let req := Rect.mk m.wx (m.wy + my) (mw - 2 * c.bw) (hh - 2 * c.bw)
      let c' := resize cfg m c req.x req.y req.w req.h false
      let my' := if my + HEIGHTc c' < m.wh then my + HEIGHTc c' else my
      let rest := tileGo cfg m n mw (i + 1) my' ty cs
      ((c, req) :: rest.1, c' :: rest.2)
    else
      let hh := cdiv (m.wh - ty) ((n - i : Nat) : Int)
      let req := Rect.mk (m.wx + mw) (m.wy + ty) (m.ww - mw - 2 * c.bw) (hh - 2 * c.bw)
      let c' := resize cfg m c req.x req.y req.w req.h false
      let ty' := if ty + HEIGHTc c' < m.wh then ty + HEIGHTc c' else ty
      let rest := tileGo cfg m n mw (i + 1) my ty' cs
      ((c, req) :: rest.1, c' :: rest.2)

/-- `__tile`: count the visible non-floating clients (`__nexttiled`
chain), return if none, compute the master width, then place every client
with running offsets. Returns the (client, request) pairs and the updated
clients. -/
def tile (cfg : Config) (m : Mon) (clients : List Client) :
    List (Client × Rect) × List Client :=
  let tiled := clients.filter (fun c => !c.isfloating && isVisible m c)
  let n := tiled.length
  if n = 0 then ([], [])
  else tileGo cfg m n (tileMw m n) 0 0 0 tiled

theorem tileGo_stack_column (cfg : Config) (m : Mon) (n : Nat)
    (hnm : m.nmaster = 0) (cs : List Client) :
    ∀ (i : Nat) (my ty : Int), ∀ p ∈ (tileGo cfg m n 0 i my ty cs).1,
      p.2.x = m.wx ∧ p.2.w = m.ww - 2 * p.1.bw := by
  induction cs with
  | nil => intro i my ty p hp; simp [tileGo] at hp
  | cons c cs ih =>
    intro i my ty p hp
    unfold tileGo at hp
    rw [if_neg (by omega)] at hp
    dsimp only at hp
    rcases List.mem_cons.mp hp with rfl | hp'
    · constructor <;> dsimp only <;> ring
    · exact ih (i + 1) my _ p hp'

theorem tileGo_master_column (cfg : Config) (m : Mon) (n : Nat)
    (cs : List Client) :
    ∀ (i : Nat) (my ty : Int), i + cs.length ≤ m.nmaster →
      ∀ p ∈ (tileGo cfg m n m.ww i my ty cs).1,
        p.2.x = m.wx ∧ p.2.w = m.ww - 2 * p.1.bw := by
  induction cs with
  | nil => intro i my ty _ p hp; simp [tileGo] at hp
  | cons c cs ih =>
    intro i my ty hlen p hp
    unfold tileGo at hp
    rw [if_pos (by simp at hlen; omega)] at hp
    dsimp only at hp
    rcases List.mem_cons.mp hp with rfl | hp'
    · exact ⟨rfl, rfl⟩
    · refine ih (i + 1) _ ty (by simp at hlen; omega) p hp'

/-- C5: boundary behaviours of the tile arranger. With `n` visible
non-floating clients (`n > 0`): `nmaster = 0` gives master width 0 and a
pure stack column at `x = wx`, width `ww - 2*bw`; `n ≤ nmaster` gives
master width `ww` and a single full-width column; otherwise the master
width is `ww * mfact` truncated to an integer. -/
theorem tile_boundaries (cfg : Config) (m : Mon) (clients : List Client) :
    (0 < (clients.filter (fun c => !c.isfloating && isVisible m c)).length →
      m.nmaster = 0 →
      tileMw m (clients.filter (fun c => !c.isfloating && isVisible m c)).length = 0 ∧
      ∀ p ∈ (tile cfg m clients).1, p.2.x = m.wx ∧ p.2.w = m.ww - 2 * p.1.bw) ∧
    (0 < (clients.filter (fun c => !c.isfloating && isVisible m c)).length →
      (clients.filter (fun c => !c.isfloating && isVisible m c)).length ≤ m.nmaster →
      tileMw m (clients.filter (fun c => !c.isfloating && isVisible m c)).length = m.ww ∧
      ∀ p ∈ (tile cfg m clients).1, p.2.x = m.wx ∧ p.2.w = m.ww - 2 * p.1.bw) ∧
    ((clients.filter (fun c => !c.isfloating && isVisible m c)).length > m.nmaster →
      0 < m.nmaster →
      tileMw m (clients.filter (fun c => !c.isfloating && isVisible m c)).length
        = ctrunc ((m.ww : ℚ) * m.mfact)) := by
  refine ⟨?_, ?_, ?_⟩
  · intro hn hnm
    have hmw : tileMw m (clients.filter (fun c => !c.isfloating && isVisible m c)).length = 0 := by
      unfold tileMw
      rw [if_pos (by omega), if_neg (by omega)]
    refine ⟨hmw, ?_⟩
    intro p hp
    unfold tile at hp
    rw [if_neg (by omega), hmw] at hp
    exact tileGo_stack_column cfg m _ hnm _ 0 0 0 p hp
  · intro hn hle
    have hmw : tileMw m (clients.filter (fun c => !c.isfloating && isVisible m c)).length = m.ww := by
      unfold tileMw
      rw [if_neg (by omega)]
    refine ⟨hmw, ?_⟩
    intro p hp
    unfold tile at hp
    rw [if_neg (by omega), hmw] at hp
    exact tileGo_master_column cfg m _ _ 0 0 0 (by simpa using hle) p hp
  · intro hgt hpos
    unfold tileMw
    rw [if_pos (by omega), if_pos (by omega)]

/-- Witness for `tile_boundaries`: one tiled client, `nmaster = 0` gives
the stack column request at `x = wx`. -/
theorem tile_boundaries_witness :
    0 < ([sampleClient].filter
      (fun c => !c.isfloating && isVisible { c8mon with nmaster := 0 } c)).length ∧
    tileMw { c8mon with nmaster := 0 }
      ([sampleClient].filter
        (fun c => !c.isfloating && isVisible { c8mon with nmaster := 0 } c)).length = 0 :=
  ⟨by decide,
    ((tile_boundaries c8cfg { c8mon with nmaster := 0 } [sampleClient]).1
      (by decide) (by decide)).1⟩

/-! ## Rules (`__applyrules`) for claim C6 -/

/-- A configured `Rule`; `NULL` patterns are `none` (wildcard). -/
structure RuleT where
  rclass : Option (List Char)
  rinstance : Option (List Char)
  rtitle : Option (List Char)
  rtags : Nat
  risfloating : Bool
  rmonitor : Int
deriving DecidableEq

/-- A monitor as `__applyrules` sees it: its index `num` and its currently
selected tagset. -/
structure MonRef where
  num : Int
  seltagset : Nat
deriving DecidableEq

/-- The client state `__applyrules` reads and writes: title, tag mask,
floating flag and owning monitor. -/
structure ClientR where
  name : List Char
  tags : Nat
  isfloating : Bool
  mon : MonRef
deriving DecidableEq

/-- Whether `pat` occurs at the start of `s`. -/
def startsWithL : List Char → List Char → Bool
  | [], _ => true
  | _ :: _, [] => false
  | a :: as, b :: bs => a == b && startsWithL as bs

/-- `strstr` semantics: `pat` occurs as a contiguous substring of `s`. -/
def containsL (pat : List Char) : List Char → Bool
  | [] => startsWithL pat []
  | a :: rest => startsWithL pat (a :: rest) || containsL pat rest

/-- A `NULL` pattern matches anything, otherwise `strstr`. -/
def matchOpt (p : Option (List Char)) (s : List Char) : Bool :=
  match p with
  | none => true
  | some pat => containsL pat s

/-- The rule match condition of `__applyrules`:
`(!r->title || strstr(c->name, r->title)) && (!r->class || strstr(class,
r->class)) && (!r->instance || strstr(instance, r->instance))`. -/
def ruleMatches (cls inst name : List Char) (r : RuleT) : Bool :=
  matchOpt r.rtitle name && matchOpt r.rclass cls && matchOpt r.rinstance inst

/-- The monitor search
`for (m = mons; m && m->num != r->monitor; m = m->next);`. -/
def findMonByNum (mons : List MonRef) (idx : Int) : Option MonRef :=
  mons.find? (fun mm => mm.num == idx)

/-- One iteration of the rule loop: on a match, set the floating flag,
OR the rule's tags in, and re-home when a monitor with the rule's index
exists. -/
def applyrulesStep (cls inst : List Char) (mons : List MonRef)
    (c : ClientR) (r : RuleT) : ClientR :=
  if ruleMatches cls inst c.name r then
    let c := { c with isfloating := r.risfloating, tags := c.tags ||| r.rtags }
    match findMonByNum mons r.rmonitor with
    | some mm => { c with mon := mm }
    | none => c
  else c

/-- `__applyrules`: reset floating and tags, fold the configured rule
table in order, then fall back to the owning monitor's selected tagset
when no configured tag bit was set. The class and instance strings come
from `XGetClassHint` (parameters `cls`/`inst`, with the `broken`
substitution already applied by the caller). -/
def applyrules (numtags : Nat) (rules : List RuleT) (cls inst : List Char)
    (mons : List MonRef) (c : ClientR) : ClientR :=
  let c0 := { c with isfloating := false, tags := 0 }
  let c1 := rules.foldl (applyrulesStep cls inst mons) c0
  { c1 with tags := if c1.tags &&& TAGMASK numtags ≠ 0
      then c1.tags &&& TAGMASK numtags else c1.mon.seltagset }

theorem applyrulesStep_matched (cls inst : List Char) (mons : List MonRef)
    (a : ClientR) (r : RuleT) (hm : ruleMatches cls inst a.name r = true) :
    (applyrulesStep cls inst mons a r).name = a.name ∧
    (applyrulesStep cls inst mons a r).isfloating = r.risfloating ∧
    (applyrulesStep cls inst mons a r).tags = a.tags ||| r.rtags ∧
    (applyrulesStep cls inst mons a r).mon
      = (findMonByNum mons r.rmonitor).getD a.mon := by
  unfold applyrulesStep
  rw [if_pos hm]
  cases hfind : findMonByNum mons r.rmonitor <;> simp [hfind]

theorem applyrulesStep_unmatched (cls inst : List Char) (mons : List MonRef)
    (a : ClientR) (r : RuleT) (hm : ¬ ruleMatches cls inst a.name r = true) :
    applyrulesStep cls inst mons a r = a := by
  unfold applyrulesStep
  rw [if_neg hm]

theorem lor_foldl_shift (l : List RuleT) :
    ∀ x y : Nat, l.foldl (fun acc r => acc ||| r.rtags) (x ||| y)
      = x ||| l.foldl (fun acc r => acc ||| r.rtags) y := by
  induction l with
  | nil => intro x y; rfl
  | cons r rs ih =>
    intro x y
    simp only [List.foldl_cons]
    rw [Nat.lor_assoc, ih]

theorem applyrules_fold (cls inst : List Char) (mons : List MonRef)
    (rules : List RuleT) :
    ∀ a : ClientR,
      (rules.foldl (applyrulesStep cls inst mons) a).name = a.name ∧
      (rules.foldl (applyrulesStep cls inst mons) a).isfloating
        = ((rules.filter (ruleMatches cls inst a.name)).map
            (fun r => r.risfloating)).getLastD a.isfloating ∧
      (rules.foldl (applyrulesStep cls inst mons) a).mon
        = ((rules.filter (ruleMatches cls inst a.name)).filterMap
            (fun r => findMonByNum mons r.rmonitor)).getLastD a.mon ∧
      (rules.foldl (applyrulesStep cls inst mons) a).tags
        = a.tags ||| ((rules.filter (ruleMatches cls inst a.name)).foldl
            (fun acc r => acc ||| r.rtags) 0) := by
  induction rules with
  | nil =>
    intro a
    refine ⟨rfl, rfl, rfl, ?_⟩
    simp
  | cons r rs ih =>
    intro a
    by_cases hm : ruleMatches cls inst a.name r = true
    · obtain ⟨sn, sf, st, sm⟩ := applyrulesStep_matched cls inst mons a r hm
      obtain ⟨n2, f2, m2, t2⟩ := ih (applyrulesStep cls inst mons a r)
      rw [sn] at n2 f2 m2 t2
      simp only [List.foldl_cons, List.filter_cons, hm, if_true,
        List.map_cons, List.filterMap_cons]
      refine ⟨n2, ?_, ?_, ?_⟩
      · rw [List.getLastD_cons, f2, sf]
      · rw [m2, sm]
        cases hfind : findMonByNum mons r.rmonitor with
        | none => rfl
        | some mm =>
          dsimp only
          rw [List.getLastD_cons, Option.getD_some]
      · rw [t2, st, Nat.lor_assoc]
        congr 1
        rw [← lor_foldl_shift, Nat.or_zero, Nat.zero_or]
    · have hstep := applyrulesStep_unmatched cls inst mons a r hm
      obtain ⟨n2, f2, m2, t2⟩ := ih a
      simp only [List.foldl_cons, hstep, List.filter_cons, if_neg hm]
      exact ⟨n2, f2, m2, t2⟩

/-- C6: `__applyrules` matches every rule whose non-null patterns are
substrings of (class, instance, title). After the fold the floating flag
is the last matching rule's, the monitor is the last matching rule's when
one of the monitor list carries its index (otherwise unchanged), and the
tags are the OR of the matching rules' tags restricted to `TAGMASK`,
falling back to the owning monitor's selected tagset when that is
empty. -/
theorem applyrules_spec (numtags : Nat) (rules : List RuleT)
    (cls inst : List Char) (mons : List MonRef) (c : ClientR) :
    (applyrules numtags rules cls inst mons c).name = c.name ∧
    (applyrules numtags rules cls inst mons c).isfloating
      = ((rules.filter (ruleMatches cls inst c.name)).map
          (fun r => r.risfloating)).getLastD false ∧
    (applyrules numtags rules cls inst mons c).mon
      = ((rules.filter (ruleMatches cls inst c.name)).filterMap
          (fun r => findMonByNum mons r.rmonitor)).getLastD c.mon ∧
    (applyrules numtags rules cls inst mons c).tags
      = (if ((rules.filter (ruleMatches cls inst c.name)).foldl
            (fun acc r => acc ||| r.rtags) 0) &&& TAGMASK numtags ≠ 0
         then ((rules.filter (ruleMatches cls inst c.name)).foldl
            (fun acc r => acc ||| r.rtags) 0) &&& TAGMASK numtags
         else (((rules.filter (ruleMatches cls inst c.name)).filterMap
            (fun r => findMonByNum mons r.rmonitor)).getLastD c.mon).seltagset) := by
  obtain ⟨n1, f1, m1, t1⟩ := applyrules_fold cls inst mons rules
    { c with isfloating := false, tags := 0 }
  unfold applyrules
  dsimp only at n1 f1 m1 t1 ⊢
  rw [Nat.zero_or] at t1
  refine ⟨n1, f1, m1, ?_⟩
  rw [t1, m1]

/-- The spec's Gimp scenario as a sanity instance of `applyrules_spec`:
rule `{class="Gimp", tags=1<<3, floating=true, monitor=-1}` on a client of
class Gimp sets tag bit 4, floating, and keeps the owning monitor. -/
theorem applyrules_gimp_example :
    (applyrules 9
      [RuleT.mk (some ['G', 'i', 'm', 'p']) none none 8 true (-1)]
      ['G', 'i', 'm', 'p'] ['g', 'i', 'm', 'p'] [MonRef.mk 0 1]
      (ClientR.mk [] 0 false (MonRef.mk 0 1))).tags = 8 ∧
    (applyrules 9
      [RuleT.mk (some ['G', 'i', 'm', 'p']) none none 8 true (-1)]
      ['G', 'i', 'm', 'p'] ['g', 'i', 'm', 'p'] [MonRef.mk 0 1]
      (ClientR.mk [] 0 false (MonRef.mk 0 1))).isfloating = true ∧
    (applyrules 9
      [RuleT.mk (some ['G', 'i', 'm', 'p']) none none 8 true (-1)]
      ['G', 'i', 'm', 'p'] ['g', 'i', 'm', 'p'] [MonRef.mk 0 1]
      (ClientR.mk [] 0 false (MonRef.mk 0 1))).mon = MonRef.mk 0 1 := by
  decide

/-! ## EnterNotify (`__enternotify`, `__setclientstate`) for claim C10 -/

/-- A monitor as `__enternotify` needs it: its bar window and the window
of its selected client (`m->sel`, `none` when no selection). -/
structure EMon where
  barwin : Nat
  sel : Option Nat
deriving DecidableEq

/-- The global state `__enternotify` reads: the root window, the monitor
list, the selected monitor (by index), the managed clients as (window,
monitor index) pairs, the monitor under the pointer (what
`recttomon(x, y, 1, 1)` on the root pointer returns), and the window that
last received focus. -/
structure EState where
  root : Nat
  mons : List EMon
  selmon : Nat
  clients : List (Nat × Nat)
  pointer : Nat
  focused : Option Nat
deriving DecidableEq

/-- `__wintoclient`: the managed client owning window `w`, if any. -/
def wintoclient (st : EState) (w : Nat) : Option (Nat × Nat) :=
  st.clients.find? (fun p => p.1 == w)

/-- `__wintomon`: the root window maps to the monitor under the pointer;
otherwise a bar window's monitor, a client's monitor, or `selmon`. -/
def wintomon (st : EState) (w : Nat) : Nat :=
  if w = st.root then st.pointer
  else
    match st.mons.findIdx? (fun mm => mm.barwin == w) with
    | some i => i
    | none =>
      match wintoclient st w with
      | some p => p.2
      | none => st.selmon

/-- The fields of an `XCrossingEvent` the handler reads. `mode` and
`detail` use the X.h values `NotifyNormal = 0`, `NotifyInferior = 2`. -/
structure ECrossing where
  window : Nat
  mode : Nat
  detail : Nat
deriving DecidableEq

/-- The tail of `__enternotify` after the monitor/selection decision:
`focus(c)` (total also for a null `c` - it elects from the focus stack;
here only the focused window is recorded), `XRaiseWindow(ev->window)`,
then `setclientstate(c, NormalState)` - which reads `c->win` with no null
check. `none` marks that null-pointer dereference. -/
def enternotifyTail (st : EState) (c : Option (Nat × Nat)) : Option EState :=
  match c with
  | some p => some { st with focused := some p.1 }
  | none => none

/-- `__enternotify`: return early unless the crossing is a normal,
non-inferior one or targets the root; look up the client and its monitor
(falling back to `wintomon`); a cross-monitor crossing switches `selmon`
and falls through; on the selected monitor a null or already-selected
client returns early; then `focus`, `XRaiseWindow` and
`setclientstate(c, NormalState)`. -/
def enternotify (st : EState) (ev : ECrossing) : Option EState :=
  if (ev.mode ≠ 0 ∨ ev.detail = 2) ∧ ev.window ≠ st.root then some st
  else
    let c := wintoclient st ev.window
    let m := match c with | some p => p.2 | none => wintomon st ev.window
    if m ≠ st.selmon then
      enternotifyTail { st with selmon := m } c
    else if c = none ∨ c.map (fun p => p.1)
        = ((st.mons.get? st.selmon).bind (fun mm => mm.sel)) then
      some st
    else
      enternotifyTail st c

/-- Concrete C10 state: two monitors, pointer on monitor 1, selected
monitor 0, no managed clients. -/
def c10state : EState :=
  { root := 1000, mons := [EMon.mk 1 none, EMon.mk 2 none], selmon := 0
    clients := [], pointer := 1, focused := none }

/-- C10 fails on the code: an EnterNotify crossing on the root window
(`mode = NotifyNormal`, `detail = NotifyDetailNone`) while the pointer is
on a monitor other than the selected one and no client owns the window
reaches `setclientstate(c, NormalState)` with `c == NULL`: the handler
dereferences a null client pointer (the `none` outcome). -/
theorem enternotify_null_dereference :
    wintoclient c10state 1000 = none ∧
    wintomon c10state 1000 = 1 ∧
    c10state.selmon = 0 ∧
    enternotify c10state (ECrossing.mk 1000 0 0) = none := by
  decide

/-- Witness for `applysizehints_idempotent_nohints` on a concrete
non-floating client in a tiled layout. -/
theorem applysizehints_idempotent_nohints_witness :
    hintsCondition c8cfg c8mon sampleClient = false ∧
    applysizehints c8cfg c8mon
        (withGeom sampleClient (applysizehints c8cfg c8mon sampleClient 5 5 300 200 false))
        (applysizehints c8cfg c8mon sampleClient 5 5 300 200 false).x
        (applysizehints c8cfg c8mon sampleClient 5 5 300 200 false).y
        (applysizehints c8cfg c8mon sampleClient 5 5 300 200 false).w
        (applysizehints c8cfg c8mon sampleClient 5 5 300 200 false).h false
      = SizeHintsResult.mk
          (applysizehints c8cfg c8mon sampleClient 5 5 300 200 false).x
          (applysizehints c8cfg c8mon sampleClient 5 5 300 200 false).y
          (applysizehints c8cfg c8mon sampleClient 5 5 300 200 false).w
          (applysizehints c8cfg c8mon sampleClient 5 5 300 200 false).h false :=
  ⟨by decide,
    applysizehints_idempotent_nohints c8cfg c8mon sampleClient 5 5 300 200 false
      (by decide) (by decide) (by decide) (by decide) (by decide) (by decide)
      (by decide) (by decide)⟩

end Dwm
